import Mathlib

set_option maxRecDepth 100000

/-!
Shallow embedding of the RAG chatbot core (conversation memory, context
formatting, source-attribution filter, prompt building, chat orchestration
and the streaming endpoint) together with proofs of the specified
properties.
-/

/-- Number of characters of a string (Python `len`, counting codepoints). -/
def pyLen (s : String) : Nat := s.data.length

/-- First `n` characters of a string (Python `s[:n]` for `n ≥ 0`). -/
def pyTake (n : Nat) (s : String) : String := String.mk (s.data.take n)

/-- Lowercase every character (models Python `str.lower()`). -/
def pyLower (s : String) : String := String.mk (s.data.map Char.toLower)

/-- Drop leading whitespace characters. -/
def dropWS : List Char → List Char
  | [] => []
  | c :: cs => if c.isWhitespace then dropWS cs else c :: cs

/-- Strip leading and trailing whitespace (Python `str.strip()`). -/
def pyStrip (s : String) : String :=
  String.mk (((dropWS ((dropWS s.data).reverse)).reverse))

/-- Whitespace-splitting into non-empty words (Python `str.split()` with no
argument): runs of whitespace separate words, empty words are dropped. -/
def wordsAux : List Char → List Char → List String
  | [], acc => if acc.isEmpty then [] else [String.mk acc.reverse]
  | c :: cs, acc =>
    if c.isWhitespace then
      if acc.isEmpty then wordsAux cs [] else String.mk acc.reverse :: wordsAux cs []
    else wordsAux cs (c :: acc)

/-- Word list of a string (Python `s.split()`). -/
def pyWords (s : String) : List String := wordsAux s.data []

/-- Does `hay` start with `needle`? -/
def isPrefixL : List Char → List Char → Bool
  | _, [] => true
  | [], _ :: _ => false
  | h :: hs, n :: ns => h = n && isPrefixL hs ns

/-- Does `hay` contain `needle` as a contiguous substring? -/
def containsL : List Char → List Char → Bool
  | [], needle => needle.isEmpty
  | hay@(_ :: hs), needle => isPrefixL hay needle || containsL hs needle

/-- Substring test (Python `needle in hay`). -/
def strContains (hay needle : String) : Bool := containsL hay.data needle.data

/-- Join a list of strings with a separator (Python `sep.join(parts)`). -/
def pyJoin (sep : String) : List String → String
  | [] => ""
  | [x] => x
  | x :: y :: xs => x ++ sep ++ pyJoin sep (y :: xs)

/-- Concatenation of `sep ++ x` over a list of parts: the text a separator
join contributes after its first part. -/
def prefixJoin (sep : String) : List String → String
  | [] => ""
  | x :: xs => sep ++ x ++ prefixJoin sep xs

/-- Last `k` elements of a list (Python `xs[-k:]` for `k ≥ 0`): for `k = 0`
the Python slice `xs[-0:]` is `xs[0:]`, i.e. the whole list. -/
def pyTail (k : Nat) (xs : List α) : List α :=
  if k = 0 then xs else xs.drop (xs.length - k)

/-- Left-to-right accumulation of stream chunks (`full_response += chunk`). -/
def accumulate (chunks : List String) : String :=
  chunks.foldl (fun a c => a ++ c) ""

/-- One message of a conversation (`{"role": ..., "content": ...}`). -/
structure Turn where
  role : String
  content : String
deriving DecidableEq, Repr

/-- Association-list lookup for the per-session conversation store. -/
def lookupConv : List (String × List Turn) → String → Option (List Turn)
  | [], _ => none
  | (k, v) :: rest, sid => if k = sid then some v else lookupConv rest sid

/-- Association-list update (or insert) for the conversation store. -/
def setConv : List (String × List Turn) → String → List Turn → List (String × List Turn)
  | [], sid, v => [(sid, v)]
  | (k, w) :: rest, sid, v =>
    if k = sid then (sid, v) :: rest else (k, w) :: setConv rest sid v

/-- `ConversationMemory`: bound parameter plus per-session ordered turn logs. -/
structure ConversationMemory where
  max_history : Nat
  conversations : List (String × List Turn)
deriving DecidableEq, Repr

/-- Appending one turn to a session log, then trimming to the last
`max_history * 2` messages when the log exceeds that bound
(`ConversationMemory.add_message`, list part). -/
def appendTurn (maxh : Nat) (conv : List Turn) (t : Turn) : List Turn :=
  if (conv ++ [t]).length > maxh * 2 then pyTail (maxh * 2) (conv ++ [t]) else conv ++ [t]

/-- `ConversationMemory.add_message(session_id, role, content)`. -/
def add_message (m : ConversationMemory) (sid role content : String) : ConversationMemory :=
  let conv := (lookupConv m.conversations sid).getD []
  { m with conversations := setConv m.conversations sid (appendTurn m.max_history conv ⟨role, content⟩) }

/-- `ConversationMemory.get_conversation_history(session_id)`. -/
def get_conversation_history (m : ConversationMemory) (sid : String) : List Turn :=
  (lookupConv m.conversations sid).getD []

/-- A retrieved passage: its text and the optional `source_file` metadata
entry (`langchain` `Document`, restricted to the fields the engine reads). -/
structure Document where
  page_content : String
  source_file : Option String
deriving DecidableEq, Repr

/-- One labeled context segment for passage number `i` (the body of the
`format_context` loop): `[Source i: <source>]` then the stripped content,
cut to its first 500 characters with "..." appended when longer. -/
def renderSource (i : Nat) (doc : Document) : String :=
  let source := doc.source_file.getD "Unknown source"
  let content := pyStrip doc.page_content
  let content := if pyLen content > 500 then pyTake 500 content ++ "..." else content
  "[Source " ++ toString i ++ ": " ++ source ++ "]\n" ++ content

/-- The `context_parts` list built by the `format_context` loop,
enumerating passages from `i`. -/
def format_context_parts : Nat → List Document → List String
  | _, [] => []
  | i, d :: ds => renderSource i d :: format_context_parts (i + 1) ds

/-- `RAGEngine.format_context(documents)`. -/
def format_context (documents : List Document) : String :=
  if documents.isEmpty then "" else pyJoin "\n\n" (format_context_parts 1 documents)

/-- The fixed Neo-Latin domain keyword vocabulary (`neo_latin_keywords`). -/
def neo_latin_keywords : List String :=
  ["neo-latin", "neolatin", "latin", "renaissance", "literature",
   "petrarch", "humanist", "classical", "manuscript", "poetry",
   "prose", "scholarly", "studies", "fifteenth", "sixteenth",
   "seventeenth", "eighteenth", "century", "medieval", "humanistic"]

/-- The fixed off-topic conversational keyword vocabulary (`general_keywords`). -/
def general_keywords : List String :=
  ["weather", "time", "today", "tomorrow", "how are you",
   "hello", "hi", "thanks", "thank you", "goodbye", "bye",
   "current", "news", "politics", "sports", "food", "cooking"]

/-- The fixed stopword list removed before overlap counting (`common_words`). -/
def common_words : List String :=
  ["the", "a", "an", "and", "or", "but", "in", "on", "at", "to",
   "for", "of", "with", "by", "from", "is", "are", "was", "were",
   "have", "has", "had", "do", "does", "did", "will", "would",
   "could", "should", "can", "may", "might", "this", "that",
   "these", "those", "i", "you", "he", "she", "it", "we", "they"]

/-- Number of distinct non-stopword words shared by a (lowercased) document
content and the lowercased response (`overlap` in `_should_show_sources`). -/
def meaningfulOverlap (doc_content_lower response_lower : String) : Nat :=
  let doc_meaningful := (pyWords doc_content_lower).dedup.filter (fun w => w ∉ common_words)
  let response_meaningful := (pyWords response_lower).dedup.filter (fun w => w ∉ common_words)
  (doc_meaningful.filter (fun w => w ∈ response_meaningful)).length

/-- `RAGEngine._should_show_sources(documents, query, response)`. -/
def should_show_sources (documents : List Document) (query response : String) : Bool :=
  if documents.isEmpty then false
  else
    let query_lower := pyLower query
    let response_lower := pyLower response
    let query_has_academic := neo_latin_keywords.any (fun k => strContains query_lower k)
    if general_keywords.any (fun k => strContains query_lower k) then false
    else
      let response_has_specific := neo_latin_keywords.any (fun k => strContains response_lower k)
      let has_content_overlap :=
        documents.any (fun doc => meaningfulOverlap (pyLower doc.page_content) response_lower ≥ 3)
      query_has_academic && (response_has_specific || has_content_overlap)

/-- The reference definition of the attribution filter, following the
specified clauses: false on empty passages; false on an off-topic query
(short-circuit with precedence); otherwise true iff the query has a domain
keyword and either the response has a domain keyword or some passage shares
at least 3 non-stopword tokens with the response. -/
def shouldShowSources_spec (passages : List Document) (query response : String) : Bool :=
  if passages.isEmpty ∨ general_keywords.any (fun k => strContains (pyLower query) k) then
    false
  else
    neo_latin_keywords.any (fun k => strContains (pyLower query) k)
      && (neo_latin_keywords.any (fun k => strContains (pyLower response) k)
          || passages.any (fun p => meaningfulOverlap (pyLower p.page_content) (pyLower response) ≥ 3))

/-- The static system prompt (`config.SYSTEM_PROMPT`). -/
def SYSTEM_PROMPT : String :=
  "You are a knowledgeable assistant for question-answering tasks. First, check if the retrieved context below contains relevant information to answer the question. If the context is relevant and helpful, use it as your primary source and start your response with \x27According to my handbooks\x27 instead of phrases like \x27Based on the provided context\x27 or \x27The context shows\x27. If the context is not relevant or doesn\x27t contain useful information for the question, rely on your general knowledge to provide a helpful answer. In this case, start with one of these phrases (choose randomly):\n\x27There is no information about your question in my handbooks. Relying on my general knowledge, I can tell you that\x27,\n\x27There is no information about your question in my handbooks. From what I know generally\x27,\n\x27There is no information about your question in my handbooks. Drawing from my broader knowledge\x27,\n\x27There is no information about your question in my handbooks. Based on my general understanding\x27,\n\x27There is no information about your question in my handbooks. What I can share from my general knowledge is that\x27.\nKeep your answer informative but concise."

/-- One rendered history line of the prompt: `Human: ...` for user turns and
`Assistant: ...` for every other role. -/
def renderHistLine (t : Turn) : String :=
  (if t.role = "user" then "Human" else "Assistant") ++ ": " ++ t.content

/-- `RAGEngine.build_prompt(user_query, context, conversation_history)`. -/
def build_prompt (user_query context : String) (conversation_history : List Turn) : String :=
  let prompt_parts := [SYSTEM_PROMPT]
  let prompt_parts :=
    if pyStrip context ≠ "" then
      prompt_parts ++ ["\nRelevant information from Neo-Latin handbooks:\n" ++ context]
    else prompt_parts
  let prompt_parts :=
    if conversation_history ≠ [] then
      (prompt_parts ++ ["\nConversation history:"])
        ++ (pyTail 6 conversation_history).map renderHistLine
    else prompt_parts
  let prompt_parts := prompt_parts ++ ["\nHuman: " ++ user_query]
  let prompt_parts := prompt_parts ++ ["\nAssistant: "]
  pyJoin "\n" prompt_parts

example :
    format_context [⟨" alpha ", some "a.pdf"⟩, ⟨"beta", none⟩] =
      "[Source 1: a.pdf]\nalpha\n\n[Source 2: Unknown source]\nbeta" := by decide
example : should_show_sources [] "latin" "latin" = false := by decide
example : should_show_sources [⟨"x", none⟩] "hello latin" "latin" = false := by decide
example : should_show_sources [⟨"x", none⟩] "latin" "latin" = true := by decide
example :
    should_show_sources [⟨"De viris illustribus opus est", none⟩] "latin poetry"
      "viris illustribus opus" = true := by decide
/-- The rendered history section body: the last 6 retained turns, each on
its own line, in original order. -/
def historyBlock (h : List Turn) : String :=
  prefixJoin "\n" ((pyTail 6 h).map renderHistLine)

/-- The fixed apologetic fallback reply returned when generation fails. -/
def fallbackResponse : String :=
  "I apologize, but I\x27m having trouble generating a response right now. Please try again."

/-- `RAGEngine.generate_response(prompt)` with the blocking backend call
abstracted: `some raw` is the `response` field returned by the backend,
`none` is an exception raised by the call. On success the raw text is
stripped; on failure the fixed fallback string is returned. -/
def generate_response (backendResult : Option String) : String :=
  match backendResult with
  | some raw => pyStrip raw
  | none => fallbackResponse

/-- One deduplicated source entry of a Chat Result
(`{"file": ..., "content_preview": ...}`). -/
structure SourceEntry where
  file : String
  content_preview : String
deriving DecidableEq, Repr

/-- The content preview of a source entry: the full passage content when it
has at most 200 characters, else its first 200 characters plus "...". -/
def contentPreview (content : String) : String :=
  if pyLen content > 200 then pyTake 200 content ++ "..." else content

/-- The `sources_dict` loop of `RAGEngine.chat`: walk the retrieved
passages in rank order, keeping the first passage seen for each source
file (`seen` accumulates the files already present in the dict). -/
def buildSources (seen : List String) : List Document → List SourceEntry
  | [] => []
  | doc :: rest =>
    let source_file := doc.source_file.getD "Unknown"
    if source_file ∈ seen then buildSources seen rest
    else ⟨source_file, contentPreview doc.page_content⟩ :: buildSources (source_file :: seen) rest

/-- The value returned by `RAGEngine.chat`. -/
structure ChatResult where
  response : String
  sources : List SourceEntry
  session_id : String
deriving DecidableEq, Repr

/-- `RAGEngine.chat(user_query, session_id)`: the full blocking pipeline.
The retrieval port is abstracted by the ranked passages `docs` it returns
and the completion port by `genB`, mapping the built prompt to `some` raw
completion text or `none` for a raised exception. Returns the Chat Result
together with the updated conversation memory. -/
def chat (mem : ConversationMemory) (docs : List Document) (genB : String → Option String)
    (user_query session_id : String) : ChatResult × ConversationMemory :=
  let context := format_context docs
  let conversation_history := get_conversation_history mem session_id
  let prompt := build_prompt user_query context conversation_history
  let response := generate_response (genB prompt)
  let mem := add_message mem session_id "user" user_query
  let mem := add_message mem session_id "assistant" response
  let sources := buildSources [] docs
  let show_sources := should_show_sources docs user_query response
  (⟨response, if show_sources then sources else [], session_id⟩, mem)

/-- One server-sent event of the streaming endpoint: a content chunk
(`done=False`), the success terminal event (`done=True` with the session
id), or the error terminal event (`done=True` with an error message). -/
inductive StreamEvent where
  | chunk (text : String) : StreamEvent
  | doneOk (session_id : String) : StreamEvent
  | doneErr (error : String) : StreamEvent
deriving DecidableEq, Repr

/-- The `done` flag carried by an event. -/
def StreamEvent.isDone : StreamEvent → Bool
  | .chunk _ => false
  | .doneOk _ => true
  | .doneErr _ => true

/-- Control-flow outcome of one run of the `generate()` generator in the
streaming endpoint: either the whole body runs to completion, or an
exception escapes to the `except` clause after `k` chunk events were
already emitted (`k = 0` covers failures in retrieval, context formatting
or prompt building, before any chunk). -/
inductive StreamOutcome where
  | success : StreamOutcome
  | failAfter (k : Nat) (msg : String) : StreamOutcome

/-- The event sequence emitted by one run of `generate()` in
`/chat/stream`: every chunk forwarded so far, then exactly one terminal
event — `done` with the session id on success, `done` with an error
message from the `except` clause on failure. -/
def generateEvents (chunks : List String) (session_id : String) : StreamOutcome → List StreamEvent
  | .success => chunks.map StreamEvent.chunk ++ [StreamEvent.doneOk session_id]
  | .failAfter k msg => (chunks.take k).map StreamEvent.chunk ++ [StreamEvent.doneErr msg]

/-- The streaming chat pipeline (`generate()` in `/chat/stream`, success
path): same pipeline as `chat` up to the prompt, then the stream chunks
are forwarded as events while being accumulated into `full_response`,
both turns are appended to memory, and the terminal event is emitted.
The streaming completion port is abstracted by `genS`, mapping the built
prompt to the list of chunks the backend stream yields. -/
def chatStreamRun (mem : ConversationMemory) (docs : List Document) (genS : String → List String)
    (user_message session_id : String) : List StreamEvent × ConversationMemory :=
  let context := format_context docs
  let conversation_history := get_conversation_history mem session_id
  let prompt := build_prompt user_message context conversation_history
  let chunks := genS prompt
  let full_response := accumulate chunks
  let mem := add_message mem session_id "user" user_message
  let mem := add_message mem session_id "assistant" full_response
  (generateEvents chunks session_id .success, mem)

/-- The response text accumulated by a consumer of a stream: the
concatenation of the payloads of its chunk events. -/
def streamAccumulated (events : List StreamEvent) : String :=
  accumulate (events.filterMap (fun e =>
    match e with
    | .chunk t => some t
    | _ => none))

/-- HTTP-level result of the `/chat` endpoint, restricted to the fields
the route produces: a 400 error reply or a 200 reply with the response
text and session id. -/
inductive ChatHTTP where
  | badRequest (error : String) : ChatHTTP
  | ok (response : String) (session_id : String) : ChatHTTP
deriving DecidableEq, Repr

/-- The `/chat` route body (`app.chat`): the message is stripped and, when
blank, rejected with a 400 error before the RAG pipeline runs; otherwise
the pipeline runs on the stripped message. Returns the reply and the
resulting memory. -/
def chatEndpoint (mem : ConversationMemory) (docs : List Document)
    (genB : String → Option String) (message session_id : String) :
    ChatHTTP × ConversationMemory :=
  let user_message := pyStrip message
  if user_message = "" then (.badRequest "Message cannot be empty", mem)
  else
    let (result, mem) := chat mem docs genB user_message session_id
    (.ok result.response result.session_id, mem)

/-- The turn sequence produced by appending complete user/assistant
exchanges: each pair `(u, a)` contributes a user turn then an assistant
turn. -/
def turnsOf : List (String × String) → List Turn
  | [] => []
  | (u, a) :: ps => ⟨"user", u⟩ :: ⟨"assistant", a⟩ :: turnsOf ps

/-- Appending one complete exchange to memory, the way `chat` does: the
user turn then the assistant turn. -/
def addPair (m : ConversationMemory) (sid : String) (p : String × String) : ConversationMemory :=
  add_message (add_message m sid "user" p.1) sid "assistant" p.2

/-- Appending a sequence of complete exchanges in order, one chat call
after another. -/
def addPairs : ConversationMemory → String → List (String × String) → ConversationMemory
  | m, _, [] => m
  | m, sid, p :: ps => addPairs (addPair m sid p) sid ps

/-- The exchange log retained after appending one more complete exchange
to a session that currently retains the exchanges `qs`: the new exchange
is appended and, when the session was full, the oldest retained exchange
is dropped. -/
def nextQs (maxh : Nat) (qs : List (String × String)) (p : String × String) :
    List (String × String) :=
  if qs.length < maxh then qs ++ [p] else qs.drop 1 ++ [p]

example : generate_response (some "  hi  ") = "hi" := rfl
example : generate_response none = fallbackResponse := rfl
example :
    buildSources [] [⟨"c1", some "a.pdf"⟩, ⟨"c2", some "a.pdf"⟩, ⟨"c3", none⟩] =
      [⟨"a.pdf", "c1"⟩, ⟨"Unknown", "c3"⟩] := by decide
example :
    (chat ⟨5, []⟩ [⟨"latin", some "a.pdf"⟩] (fun _ => some " latin ") "latin" "s").1 =
      ⟨"latin", [⟨"a.pdf", "latin"⟩], "s"⟩ := by decide
example :
    (chat ⟨5, []⟩ [⟨"latin", some "a.pdf"⟩] (fun _ => some " latin ") "latin" "s").2 =
      ⟨5, [("s", [⟨"user", "latin"⟩, ⟨"assistant", "latin"⟩])]⟩ := by decide
example :
    streamAccumulated (generateEvents [" a", "b "] "s" .success) = " ab " := by decide

example : pyLower "Hi There" = "hi there" := rfl

/-! ## Helper lemmas -/

theorem lookupConv_setConv (cs : List (String × List Turn)) (sid : String) (v : List Turn) :
    lookupConv (setConv cs sid v) sid = some v := by
  induction cs with
  | nil => simp [setConv, lookupConv]
  | cons kv rest ih =>
    obtain ⟨k, w⟩ := kv
    by_cases h : k = sid
    · simp [setConv, lookupConv, h]
    · simp [setConv, lookupConv, h, ih]

theorem get_add_message (m : ConversationMemory) (sid role content : String) :
    get_conversation_history (add_message m sid role content) sid =
      appendTurn m.max_history (get_conversation_history m sid) ⟨role, content⟩ := by
  simp [get_conversation_history, add_message, lookupConv_setConv]

theorem appendTurn_length_le (maxh : Nat) (hm : 0 < maxh) (conv : List Turn) (t : Turn) :
    (appendTurn maxh conv t).length ≤ 2 * maxh := by
  unfold appendTurn
  by_cases h : (conv ++ [t]).length > maxh * 2
  · rw [if_pos h]
    unfold pyTail
    rw [if_neg (by omega : ¬ maxh * 2 = 0)]
    rw [List.length_drop]
    omega
  · rw [if_neg h]
    omega

theorem appendTurn_suffix (maxh : Nat) (conv : List Turn) (t : Turn) :
    appendTurn maxh conv t <:+ conv ++ [t] := by
  unfold appendTurn
  by_cases h : (conv ++ [t]).length > maxh * 2
  · rw [if_pos h]
    unfold pyTail
    by_cases h0 : maxh * 2 = 0
    · rw [if_pos h0]
    · rw [if_neg h0]
      exact List.drop_suffix _ _
  · rw [if_neg h]

/-! ## Claim C1 -/

/-- C1: for every memory state with a positive `max_history` bound, and
every `add_message(session_id, role, content)` call, the turn sequence
returned by `get_conversation_history(session_id)` immediately afterwards
has length at most `2 * max_history`, and is a suffix of the previously
retained sequence extended with the new turn — i.e. the cap is enforced
after every single append and overflow evicts oldest turns first. -/
theorem add_message_hard_cap (m : ConversationMemory) (sid role content : String)
    (hm : 0 < m.max_history) :
    (get_conversation_history (add_message m sid role content) sid).length
        ≤ 2 * m.max_history ∧
    get_conversation_history (add_message m sid role content) sid
        <:+ get_conversation_history m sid ++ [⟨role, content⟩] := by
  rw [get_add_message]
  exact ⟨appendTurn_length_le _ hm _ _, appendTurn_suffix _ _ _⟩

/-- Witness for C1: a concrete full session at `max_history = 1` where the
append overflows and the cap still holds. -/
theorem add_message_hard_cap_witness :
    0 < (⟨1, [("s", [⟨"user", "u0"⟩, ⟨"assistant", "a0"⟩])]⟩ : ConversationMemory).max_history ∧
    ((get_conversation_history
        (add_message ⟨1, [("s", [⟨"user", "u0"⟩, ⟨"assistant", "a0"⟩])]⟩ "s" "user" "u1")
        "s").length
          ≤ 2 * (⟨1, [("s", [⟨"user", "u0"⟩, ⟨"assistant", "a0"⟩])]⟩ : ConversationMemory).max_history ∧
      get_conversation_history
        (add_message ⟨1, [("s", [⟨"user", "u0"⟩, ⟨"assistant", "a0"⟩])]⟩ "s" "user" "u1")
        "s"
          <:+ get_conversation_history
                (⟨1, [("s", [⟨"user", "u0"⟩, ⟨"assistant", "a0"⟩])]⟩ : ConversationMemory) "s"
              ++ [⟨"user", "u1"⟩]) :=
  ⟨by decide, add_message_hard_cap _ "s" "user" "u1" (by decide)⟩

/-! ## Claim C3 -/

/-- C3: the implemented attribution filter coincides with the reference
definition from the specification: false on empty passages; false when the
lowercased query contains an off-topic keyword, with precedence; otherwise
true iff the query contains a domain keyword and either the response
contains a domain keyword or some passage shares at least 3 non-stopword
tokens with the response. -/
theorem should_show_sources_matches_spec (documents : List Document) (query response : String) :
    should_show_sources documents query response
      = shouldShowSources_spec documents query response := by
  unfold should_show_sources shouldShowSources_spec
  by_cases h1 : documents.isEmpty
  · simp [h1]
  · by_cases h2 : general_keywords.any (fun k => strContains (pyLower query) k)
    · simp [h1, h2]
    · simp [h1, h2]

/-! ## Claim C6 -/

/-- C6: every completed run of the streaming generator emits exactly one
event whose `done` flag is true, and that event is the last one — both on
the success path and when an exception interrupts the pipeline or the
stream after any number of forwarded chunks. -/
theorem generateEvents_single_terminal (chunks : List String) (session_id : String)
    (o : StreamOutcome) :
    (generateEvents chunks session_id o).countP StreamEvent.isDone = 1 ∧
    ∃ e, (generateEvents chunks session_id o).getLast? = some e ∧ e.isDone = true := by
  cases o with
  | success =>
    constructor
    · simp [generateEvents, List.countP_append, List.countP_map, Function.comp,
        StreamEvent.isDone, List.countP_cons, List.countP_nil, List.countP_false]
    · exact ⟨_, List.getLast?_concat _, rfl⟩
  | failAfter k msg =>
    constructor
    · simp only [generateEvents, List.countP_append, List.countP_cons, List.countP_nil]
      rw [List.countP_map]
      simp [Function.comp, StreamEvent.isDone, List.countP_false]
    · exact ⟨_, List.getLast?_concat _, rfl⟩

/-! ## Claim C7 -/

/-- C7: when the incoming message is blank (empty or whitespace-only), the
chat endpoint rejects it with the fixed error reply, the conversation
memory is left unchanged, and the outcome is the same for every retrieval
result and every completion backend — so no external call can influence
(or be needed for) the rejection. -/
theorem chatEndpoint_rejects_blank (mem : ConversationMemory) (docs : List Document)
    (genB : String → Option String) (message session_id : String)
    (h : pyStrip message = "") :
    chatEndpoint mem docs genB message session_id
      = (ChatHTTP.badRequest "Message cannot be empty", mem) := by
  simp [chatEndpoint, h]

/-- Witness for C7: a whitespace-only message is rejected unchanged. -/
theorem chatEndpoint_rejects_blank_witness :
    pyStrip "  \n " = "" ∧
    chatEndpoint ⟨5, []⟩ [⟨"c", none⟩] (fun _ => some "x") "  \n " "s"
      = (ChatHTTP.badRequest "Message cannot be empty", (⟨5, []⟩ : ConversationMemory)) :=
  ⟨rfl, chatEndpoint_rejects_blank _ _ _ _ _ rfl⟩

/-! ## Claim C9 -/

theorem format_context_parts_eq (docs : List Document) : ∀ k : Nat,
    format_context_parts k docs = docs.mapIdx (fun i doc => renderSource (k + i) doc) := by
  induction docs with
  | nil => intro k; simp [format_context_parts]
  | cons d ds ih =>
    intro k
    rw [format_context_parts, List.mapIdx_cons, ih (k + 1)]
    have harg : (fun i (doc : Document) => renderSource (k + 1 + i) doc)
        = (fun i (doc : Document) => renderSource (k + (i + 1)) doc) := by
      funext i doc
      congr 1
      omega
    rw [harg, Nat.add_zero]

/-- C9 counterexample: the implementation strips the passage content
before rendering, so a segment is not the label followed by the passage
content verbatim: for content `"x "` the rendered segment drops the
trailing space. -/
theorem format_context_counterexample :
    format_context [⟨"x ", some "f"⟩] = "[Source 1: f]\nx" ∧
    format_context [⟨"x ", some "f"⟩] ≠ "[Source 1: f]" ++ "\n" ++ "x " := by
  exact ⟨by decide, by decide⟩

/-- C9 (amended): `format_context` returns the empty string on an empty
list; otherwise passage `i` (1-based) is rendered as the label
`[Source i: <source_id>]` followed (after a newline) by its
whitespace-trimmed content, where trimmed content longer than 500
characters is cut to its first 500 characters with a `"..."` marker
appended, and consecutive segments are separated by a blank line. -/
theorem format_context_renders_segments :
    format_context ([] : List Document) = "" ∧
    ∀ docs : List Document,
      format_context docs
        = pyJoin "\n\n" (docs.mapIdx (fun i doc =>
            "[Source " ++ toString (i + 1) ++ ": " ++ doc.source_file.getD "Unknown source"
              ++ "]\n"
              ++ (if pyLen (pyStrip doc.page_content) > 500 then
                    pyTake 500 (pyStrip doc.page_content) ++ "..."
                  else pyStrip doc.page_content))) := by
  constructor
  · rfl
  · intro docs
    cases docs with
    | nil => rfl
    | cons d ds =>
      have harg : (fun i (doc : Document) => renderSource (1 + i) doc)
          = (fun i (doc : Document) =>
              "[Source " ++ toString (i + 1) ++ ": " ++ doc.source_file.getD "Unknown source"
                ++ "]\n"
                ++ (if pyLen (pyStrip doc.page_content) > 500 then
                      pyTake 500 (pyStrip doc.page_content) ++ "..."
                    else pyStrip doc.page_content)) := by
        funext i doc
        simp only [renderSource]
        rw [Nat.add_comm 1 i]
      rw [format_context, if_neg (by simp), format_context_parts_eq (d :: ds) 1, harg]

/-! ## Claim C2 -/

theorem turnsOf_length (ps : List (String × String)) : (turnsOf ps).length = 2 * ps.length := by
  induction ps with
  | nil => rfl
  | cons p ps ih =>
    obtain ⟨u, a⟩ := p
    simp only [turnsOf, List.length_cons, ih]
    omega

theorem turnsOf_append (ps qs : List (String × String)) :
    turnsOf (ps ++ qs) = turnsOf ps ++ turnsOf qs := by
  induction ps with
  | nil => rfl
  | cons p ps ih =>
    obtain ⟨u, a⟩ := p
    simp only [List.cons_append, turnsOf, List.append_eq, ih]

theorem turnsOf_drop_two (ps : List (String × String)) :
    (turnsOf ps).drop 2 = turnsOf (ps.drop 1) := by
  cases ps with
  | nil => rfl
  | cons p ps => obtain ⟨u, a⟩ := p; rfl

theorem turnsOf_suffix {qs ps : List (String × String)} (h : qs <:+ ps) :
    turnsOf qs <:+ turnsOf ps := by
  obtain ⟨t, rfl⟩ := h
  rw [turnsOf_append]
  exact List.suffix_append _ _

theorem turnsOf_head (ps : List (String × String)) :
    ∀ t ∈ (turnsOf ps).head?, t.role = "user" := by
  cases ps with
  | nil => simp [turnsOf]
  | cons p ps => obtain ⟨u, a⟩ := p; simp [turnsOf]

theorem add_message_single (maxh : Nat) (sid : String) (v : List Turn) (r c : String) :
    add_message ⟨maxh, [(sid, v)]⟩ sid r c = ⟨maxh, [(sid, appendTurn maxh v ⟨r, c⟩)]⟩ := by
  simp [add_message, lookupConv, setConv]

theorem appendPair_turns (maxh : Nat) (hm : 0 < maxh) (qs : List (String × String))
    (hq : qs.length ≤ maxh) (u a : String) :
    appendTurn maxh (appendTurn maxh (turnsOf qs) ⟨"user", u⟩) ⟨"assistant", a⟩
      = turnsOf (nextQs maxh qs (u, a)) := by
  have hlen := turnsOf_length qs
  by_cases hlt : qs.length < maxh
  · have h1 : ¬ ((turnsOf qs ++ [(⟨"user", u⟩ : Turn)]).length > maxh * 2) := by
      simp only [List.length_append, List.length_cons, List.length_nil, hlen]
      omega
    have e1 : appendTurn maxh (turnsOf qs) (⟨"user", u⟩ : Turn)
        = turnsOf qs ++ [(⟨"user", u⟩ : Turn)] := by
      rw [appendTurn, if_neg h1]
    have h2 : ¬ (((turnsOf qs ++ [(⟨"user", u⟩ : Turn)]) ++ [(⟨"assistant", a⟩ : Turn)]).length
        > maxh * 2) := by
      simp only [List.length_append, List.length_cons, List.length_nil, hlen]
      omega
    rw [e1, appendTurn, if_neg h2]
    rw [nextQs, if_pos hlt, turnsOf_append]
    simp [turnsOf]
  · have h1 : (turnsOf qs ++ [(⟨"user", u⟩ : Turn)]).length > maxh * 2 := by
      simp only [List.length_append, List.length_cons, List.length_nil, hlen]
      omega
    have hd : (turnsOf qs ++ [(⟨"user", u⟩ : Turn)]).length - maxh * 2 = 1 := by
      simp only [List.length_append, List.length_cons, List.length_nil, hlen]
      omega
    have hsplit : (turnsOf qs ++ [(⟨"user", u⟩ : Turn)]).drop 1
        = (turnsOf qs).drop 1 ++ [(⟨"user", u⟩ : Turn)] :=
      List.drop_append_of_le_length (by omega)
    have e1 : appendTurn maxh (turnsOf qs) (⟨"user", u⟩ : Turn)
        = (turnsOf qs).drop 1 ++ [(⟨"user", u⟩ : Turn)] := by
      rw [appendTurn, if_pos h1, pyTail, if_neg (by omega : ¬ maxh * 2 = 0), hd, hsplit]
    rw [e1]
    have h2 : (((turnsOf qs).drop 1 ++ [(⟨"user", u⟩ : Turn)])
        ++ [(⟨"assistant", a⟩ : Turn)]).length > maxh * 2 := by
      simp only [List.length_append, List.length_cons, List.length_nil, List.length_drop, hlen]
      omega
    rw [appendTurn, if_pos h2, pyTail, if_neg (by omega : ¬ maxh * 2 = 0)]
    have hd2 : (((turnsOf qs).drop 1 ++ [(⟨"user", u⟩ : Turn)])
        ++ [(⟨"assistant", a⟩ : Turn)]).length - maxh * 2 = 1 := by
      simp only [List.length_append, List.length_cons, List.length_nil, List.length_drop, hlen]
      omega
    rw [hd2]
    have hsplit2 : ((((turnsOf qs).drop 1 ++ [(⟨"user", u⟩ : Turn)])
        ++ [(⟨"assistant", a⟩ : Turn)])).drop 1
        = ((turnsOf qs).drop 1).drop 1 ++ [(⟨"user", u⟩ : Turn)]
            ++ [(⟨"assistant", a⟩ : Turn)] := by
      rw [List.drop_append_of_le_length
            (by simp only [List.length_append, List.length_cons, List.length_nil,
                  List.length_drop, hlen]; omega),
          List.drop_append_of_le_length (by simp only [List.length_drop, hlen]; omega)]
    rw [hsplit2, List.drop_drop]
    rw [show (1 + 1 : Nat) = 2 from rfl, turnsOf_drop_two]
    rw [nextQs, if_neg hlt, turnsOf_append]
    simp [turnsOf]

theorem addPair_state (maxh : Nat) (hm : 0 < maxh) (sid : String)
    (qs : List (String × String)) (hq : qs.length ≤ maxh) (p : String × String) :
    addPair ⟨maxh, [(sid, turnsOf qs)]⟩ sid p = ⟨maxh, [(sid, turnsOf (nextQs maxh qs p))]⟩ := by
  obtain ⟨u, a⟩ := p
  rw [addPair, add_message_single, add_message_single, appendPair_turns maxh hm qs hq u a]

theorem nextQs_length_le (maxh : Nat) (hm : 0 < maxh) (qs : List (String × String))
    (hq : qs.length ≤ maxh) (p : String × String) : (nextQs maxh qs p).length ≤ maxh := by
  rw [nextQs]
  by_cases h : qs.length < maxh
  · rw [if_pos h]
    simp only [List.length_append, List.length_cons, List.length_nil]
    omega
  · rw [if_neg h]
    simp only [List.length_append, List.length_cons, List.length_nil, List.length_drop]
    omega

theorem addPairs_closed (maxh : Nat) (hm : 0 < maxh) (sid : String) :
    ∀ (ps qs : List (String × String)), qs.length ≤ maxh →
      ∃ rs : List (String × String),
        addPairs ⟨maxh, [(sid, turnsOf qs)]⟩ sid ps = ⟨maxh, [(sid, turnsOf rs)]⟩ ∧
        rs.length ≤ maxh ∧ rs <:+ qs ++ ps := by
  intro ps
  induction ps with
  | nil =>
    intro qs hq
    exact ⟨qs, rfl, hq, by simp⟩
  | cons p ps ih =>
    intro qs hq
    rw [addPairs, addPair_state maxh hm sid qs hq p]
    obtain ⟨rs, h1, h2, h3⟩ := ih (nextQs maxh qs p) (nextQs_length_le maxh hm qs hq p)
    refine ⟨rs, h1, h2, h3.trans ?_⟩
    rw [nextQs]
    by_cases h : qs.length < maxh
    · rw [if_pos h, List.append_assoc, List.singleton_append]
    · rw [if_neg h, List.append_assoc, List.singleton_append]
      obtain ⟨s, hs⟩ := List.drop_suffix 1 qs
      exact ⟨s, by rw [← List.append_assoc, hs]⟩

theorem add_message_empty_store (maxh : Nat) (sid r c : String) :
    add_message ⟨maxh, []⟩ sid r c = ⟨maxh, [(sid, appendTurn maxh [] ⟨r, c⟩)]⟩ := by
  simp [add_message, lookupConv, setConv]

theorem addPair_empty_store (maxh : Nat) (sid : String) (p : String × String) :
    addPair ⟨maxh, []⟩ sid p = addPair ⟨maxh, [(sid, turnsOf [])]⟩ sid p := by
  rw [addPair, addPair, add_message_empty_store]
  simp only [add_message_single]
  rfl

/-- C2 counterexample: with `max_history = 1`, after a single appended turn
the retained sequence has odd length 1, and after a third turn (the next
user message) the retained sequence begins with an assistant turn whose
preceding user turn was evicted — eviction does split a user/assistant
pair between the two appends of an exchange. -/
theorem memory_parity_counterexample :
    ¬ Even (get_conversation_history (add_message ⟨1, []⟩ "s" "user" "u1") "s").length ∧
    (get_conversation_history
        (add_message (add_message (add_message ⟨1, []⟩ "s" "user" "u1") "s" "assistant" "a1")
          "s" "user" "u2") "s").head? = some ⟨"assistant", "a1"⟩ := by
  exact ⟨by decide, by decide⟩

/-- C2 (amended): after any number of complete user/assistant exchanges
appended in call order (the way the chat pipeline appends turns, one user
turn then one assistant turn per call), the retained sequence for the
session is an even-length suffix of the full append history and never
begins with an assistant turn: whole oldest exchanges are evicted. The
mid-exchange states, after the user turn and before the assistant turn of
the same call, are excluded — there the parity and pair-alignment claims
fail, as the counterexample shows. -/
theorem addPairs_retains_whole_exchanges (maxh : Nat) (hm : 0 < maxh) (sid : String)
    (ps : List (String × String)) :
    Even (get_conversation_history (addPairs ⟨maxh, []⟩ sid ps) sid).length ∧
    get_conversation_history (addPairs ⟨maxh, []⟩ sid ps) sid <:+ turnsOf ps ∧
    ∀ t ∈ (get_conversation_history (addPairs ⟨maxh, []⟩ sid ps) sid).head?, t.role = "user" := by
  cases ps with
  | nil =>
    refine ⟨?_, ?_, ?_⟩ <;> simp [addPairs, get_conversation_history, lookupConv, turnsOf]
  | cons p ps =>
    rw [addPairs, addPair_empty_store, addPair_state maxh hm sid [] (by simp) p]
    obtain ⟨rs, h1, h2, h3⟩ := addPairs_closed maxh hm sid ps (nextQs maxh [] p)
      (nextQs_length_le maxh hm [] (by simp) p)
    rw [h1]
    have hget : get_conversation_history ⟨maxh, [(sid, turnsOf rs)]⟩ sid = turnsOf rs := by
      simp [get_conversation_history, lookupConv]
    rw [hget]
    have hsuf : rs <:+ p :: ps := by
      have hnil : nextQs maxh [] p = [p] := by
        rw [nextQs, if_pos (by simpa using hm)]
        rfl
      rw [hnil] at h3
      exact h3
    refine ⟨?_, turnsOf_suffix hsuf, turnsOf_head rs⟩
    rw [turnsOf_length]
    exact ⟨rs.length, two_mul rs.length⟩

/-- Witness for C2 (amended) at `max_history = 1` with two exchanges, so
the first exchange is evicted whole. -/
theorem addPairs_retains_whole_exchanges_witness :
    0 < 1 ∧
    (Even (get_conversation_history (addPairs ⟨1, []⟩ "s" [("u1", "a1"), ("u2", "a2")]) "s").length ∧
     get_conversation_history (addPairs ⟨1, []⟩ "s" [("u1", "a1"), ("u2", "a2")]) "s"
        <:+ turnsOf [("u1", "a1"), ("u2", "a2")] ∧
     ∀ t ∈ (get_conversation_history (addPairs ⟨1, []⟩ "s" [("u1", "a1"), ("u2", "a2")]) "s").head?,
        t.role = "user") :=
  ⟨by decide, addPairs_retains_whole_exchanges 1 (by decide) "s" [("u1", "a1"), ("u2", "a2")]⟩

/-! ## Claim C4 -/

theorem pyJoin_eq (sep : String) (x : String) (xs : List String) :
    pyJoin sep (x :: xs) = x ++ prefixJoin sep xs := by
  induction xs generalizing x with
  | nil =>
    show x = x ++ ""
    rw [String.append_empty]
  | cons y ys ih =>
    show x ++ sep ++ pyJoin sep (y :: ys) = x ++ prefixJoin sep (y :: ys)
    rw [ih y, prefixJoin]
    simp only [String.append_assoc]

theorem prefixJoin_append (sep : String) (xs ys : List String) :
    prefixJoin sep (xs ++ ys) = prefixJoin sep xs ++ prefixJoin sep ys := by
  induction xs with
  | nil =>
    show prefixJoin sep ys = "" ++ prefixJoin sep ys
    rw [String.empty_append]
  | cons x xs ih =>
    simp only [List.cons_append, prefixJoin, List.append_eq, ih, String.append_assoc]

/-- C4: `build_prompt` is a pure function whose output has the fixed
shape: the system instructions; then, exactly when the context is
non-blank, the labeled context section; then, exactly when the history is
non-empty, the history header followed by the last 6 turns rendered as
`Human:`/`Assistant:` lines in original order; then the new user turn and
the open assistant marker. In particular `build_prompt q "" []` is just
the system instructions, the user turn, and the assistant marker. -/
theorem build_prompt_structure (q c : String) (h : List Turn) :
    (build_prompt q c h
      = SYSTEM_PROMPT
          ++ (if pyStrip c = "" then ""
              else "\n\nRelevant information from Neo-Latin handbooks:\n" ++ c)
          ++ (if h = [] then "" else "\n\nConversation history:" ++ historyBlock h)
          ++ "\n\nHuman: " ++ q ++ "\n\nAssistant: ") ∧
    build_prompt q "" [] = SYSTEM_PROMPT ++ "\n\nHuman: " ++ q ++ "\n\nAssistant: " := by
  have main : ∀ (c2 : String) (h2 : List Turn),
      build_prompt q c2 h2
        = SYSTEM_PROMPT
            ++ (if pyStrip c2 = "" then ""
                else "\n\nRelevant information from Neo-Latin handbooks:\n" ++ c2)
            ++ (if h2 = [] then "" else "\n\nConversation history:" ++ historyBlock h2)
            ++ "\n\nHuman: " ++ q ++ "\n\nAssistant: " := by
    intro c2 h2
    by_cases hc : pyStrip c2 = "" <;> by_cases hh : h2 = [] <;>
      simp only [build_prompt, hc, hh, if_pos, if_neg, ne_eq, not_true_eq_false,
        not_false_eq_true, if_true, if_false, ite_true, ite_false,
        List.append_assoc, List.singleton_append, List.cons_append, List.nil_append,
        pyJoin_eq, prefixJoin, prefixJoin_append, historyBlock] <;>
      simp only [show ("\n\nRelevant information from Neo-Latin handbooks:\n" : String)
            = "\n" ++ "\nRelevant information from Neo-Latin handbooks:\n" from rfl,
          show ("\n\nConversation history:" : String)
            = "\n" ++ "\nConversation history:" from rfl,
          show ("\n\nHuman: " : String) = "\n" ++ "\nHuman: " from rfl,
          show ("\n\nAssistant: " : String) = "\n" ++ "\nAssistant: " from rfl,
          String.append_assoc, String.append_empty, String.empty_append]
  refine ⟨main c h, ?_⟩
  rw [main "" []]
  simp [show pyStrip "" = "" from rfl, String.append_assoc]

/-! ## Claim C5 -/

theorem streamAccumulated_success (chunks : List String) (sid : String) :
    streamAccumulated (generateEvents chunks sid .success) = accumulate chunks := by
  rw [streamAccumulated, generateEvents]
  congr 1
  induction chunks with
  | nil => rfl
  | cons c cs ih =>
    simp only [List.map_cons, List.cons_append, List.filterMap_cons, ih]

/-- C5 counterexample: the blocking pipeline strips the completion text
(`.strip()`) while the streaming pipeline accumulates the raw chunks, so a
deterministic backend whose completion carries surrounding whitespace
makes the two response texts (and hence the appended assistant turns)
differ. -/
theorem chat_stream_counterexample :
    ¬ (∀ (mem : ConversationMemory) (docs : List Document)
        (genB : String → Option String) (genS : String → List String) (q sid : String),
        (∀ p, genB p = some (accumulate (genS p))) →
        ((chat mem docs genB q sid).1.response
            = streamAccumulated (chatStreamRun mem docs genS q sid).1 ∧
         (chat mem docs genB q sid).2 = (chatStreamRun mem docs genS q sid).2)) := by
  intro hclaim
  have h := hclaim ⟨5, []⟩ [] (fun _ => some " hi ") (fun _ => [" hi "]) "q" "s" (fun _ => rfl)
  have hne : (chat ⟨5, []⟩ [] (fun _ => some " hi ") "q" "s").1.response
      ≠ streamAccumulated (chatStreamRun ⟨5, []⟩ [] (fun _ => [" hi "]) "q" "s").1 := by decide
  exact hne h.1

/-- C5 (amended): for every deterministic completion backend (the blocking
call returns exactly the concatenation of the stream's chunks) whose
completion text carries no leading or trailing whitespace, the blocking
chat and the streaming chat produce the same response text and leave the
session memory in the identical state. Without the whitespace condition
the texts differ, because only the blocking path strips the completion. -/
theorem chat_stream_equiv (mem : ConversationMemory) (docs : List Document)
    (genB : String → Option String) (genS : String → List String) (q sid : String)
    (hdet : ∀ p, genB p = some (accumulate (genS p)))
    (htrim : ∀ p, pyStrip (accumulate (genS p)) = accumulate (genS p)) :
    (chat mem docs genB q sid).1.response
        = streamAccumulated (chatStreamRun mem docs genS q sid).1 ∧
    (chat mem docs genB q sid).2 = (chatStreamRun mem docs genS q sid).2 := by
  constructor
  · simp only [chat, chatStreamRun, streamAccumulated_success, hdet, generate_response, htrim]
  · simp only [chat, chatStreamRun, hdet, generate_response, htrim]

/-- Witness for C5 (amended) with a constant one-chunk backend. -/
theorem chat_stream_equiv_witness :
    (∀ p : String, (fun _ : String => some "hi") p
        = some (accumulate ((fun _ : String => ["hi"]) p))) ∧
    (∀ p : String, pyStrip (accumulate ((fun _ : String => ["hi"]) p))
        = accumulate ((fun _ : String => ["hi"]) p)) ∧
    ((chat ⟨5, []⟩ [] (fun _ => some "hi") "q" "s").1.response
        = streamAccumulated (chatStreamRun ⟨5, []⟩ [] (fun _ => ["hi"]) "q" "s").1 ∧
     (chat ⟨5, []⟩ [] (fun _ => some "hi") "q" "s").2
        = (chatStreamRun ⟨5, []⟩ [] (fun _ => ["hi"]) "q" "s").2) :=
  ⟨fun _ => rfl, fun _ => rfl,
   chat_stream_equiv ⟨5, []⟩ [] (fun _ => some "hi") (fun _ => ["hi"]) "q" "s"
     (fun _ => rfl) (fun _ => rfl)⟩

/-! ## Claim C10 -/

theorem contentPreview_cases (c : String) :
    contentPreview c = (if pyLen c ≤ 200 then c else pyTake 200 c ++ "...") := by
  rw [contentPreview]
  by_cases hc : pyLen c > 200
  · rw [if_pos hc, if_neg (by omega)]
  · rw [if_neg hc, if_pos (by omega)]

theorem buildSources_mem (docs : List Document) : ∀ (seen : List String) (e : SourceEntry),
    e ∈ buildSources seen docs →
    e.file ∉ seen ∧
    ∃ i : Nat, ∃ hi : i < docs.length,
      (docs.get ⟨i, hi⟩).source_file.getD "Unknown" = e.file ∧
      e.content_preview = contentPreview (docs.get ⟨i, hi⟩).page_content ∧
      ∀ j : Nat, ∀ hj : j < i, (docs.get ⟨j, by omega⟩).source_file.getD "Unknown" ≠ e.file := by
  induction docs with
  | nil =>
    intro seen e he
    simp [buildSources] at he
  | cons d ds ih =>
    intro seen e he
    simp only [buildSources] at he
    by_cases hmem : d.source_file.getD "Unknown" ∈ seen
    · rw [if_pos hmem] at he
      obtain ⟨hnot, i, hi, h1, h2, h3⟩ := ih seen e he
      refine ⟨hnot, i + 1, by simp only [List.length_cons]; omega, h1, h2, ?_⟩
      intro j hj
      cases j with
      | zero =>
        intro heq
        exact hnot (heq ▸ hmem)
      | succ j2 => exact h3 j2 (by omega)
    · rw [if_neg hmem] at he
      rcases List.mem_cons.mp he with hhead | htail
      · subst hhead
        refine ⟨hmem, 0, by simp, rfl, rfl, ?_⟩
        intro j hj
        exact absurd hj (by omega)
      · obtain ⟨hnot, i, hi, h1, h2, h3⟩ := ih (d.source_file.getD "Unknown" :: seen) e htail
        refine ⟨fun hs => hnot (List.mem_cons_of_mem _ hs), i + 1,
          by simp only [List.length_cons]; omega, h1, h2, ?_⟩
        intro j hj
        cases j with
        | zero =>
          intro heq
          exact hnot (heq ▸ List.mem_cons_self _ _)
        | succ j2 => exact h3 j2 (by omega)

/-- C10: every source entry of a Chat Result is built from the first
(highest-ranked) retrieved passage with that source file, and its preview
is exactly that passage's full content when it has at most 200 characters,
and otherwise its first 200 characters followed by `"..."`. -/
theorem chat_sources_preview (mem : ConversationMemory) (docs : List Document)
    (genB : String → Option String) (q sid : String) (e : SourceEntry)
    (he : e ∈ (chat mem docs genB q sid).1.sources) :
    ∃ i : Nat, ∃ hi : i < docs.length,
      (docs.get ⟨i, hi⟩).source_file.getD "Unknown" = e.file ∧
      e.content_preview
        = (if pyLen (docs.get ⟨i, hi⟩).page_content ≤ 200 then (docs.get ⟨i, hi⟩).page_content
           else pyTake 200 (docs.get ⟨i, hi⟩).page_content ++ "...") ∧
      ∀ j : Nat, ∀ hj : j < i, (docs.get ⟨j, by omega⟩).source_file.getD "Unknown" ≠ e.file := by
  simp only [chat] at he
  split at he
  · obtain ⟨hnot, i, hi, h1, h2, h3⟩ := buildSources_mem docs [] e he
    refine ⟨i, hi, h1, ?_, h3⟩
    rw [h2, contentPreview_cases]
  · simp at he

/-- Witness for C10: a one-passage chat whose attribution filter fires,
so the single source entry carries the passage's full short content. -/
theorem chat_sources_preview_witness :
    (⟨"a.pdf", "latin"⟩ : SourceEntry)
        ∈ (chat ⟨5, []⟩ [⟨"latin", some "a.pdf"⟩] (fun _ => some " latin ") "latin" "s").1.sources ∧
    (∃ i : Nat, ∃ hi : i < ([⟨"latin", some "a.pdf"⟩] : List Document).length,
      (([⟨"latin", some "a.pdf"⟩] : List Document).get ⟨i, hi⟩).source_file.getD "Unknown"
          = (⟨"a.pdf", "latin"⟩ : SourceEntry).file ∧
      (⟨"a.pdf", "latin"⟩ : SourceEntry).content_preview
        = (if pyLen (([⟨"latin", some "a.pdf"⟩] : List Document).get ⟨i, hi⟩).page_content ≤ 200
           then (([⟨"latin", some "a.pdf"⟩] : List Document).get ⟨i, hi⟩).page_content
           else pyTake 200 (([⟨"latin", some "a.pdf"⟩] : List Document).get ⟨i, hi⟩).page_content
             ++ "...") ∧
      ∀ j : Nat, ∀ hj : j < i,
        (([⟨"latin", some "a.pdf"⟩] : List Document).get ⟨j, by omega⟩).source_file.getD "Unknown"
          ≠ (⟨"a.pdf", "latin"⟩ : SourceEntry).file) :=
  ⟨by decide,
   chat_sources_preview ⟨5, []⟩ [⟨"latin", some "a.pdf"⟩] (fun _ => some " latin ") "latin" "s"
     ⟨"a.pdf", "latin"⟩ (by decide)⟩

/-! ## Claim C8 -/

/-- C8: the blocking completion operation is a total function — when the
underlying generation call raises (modelled by the backend returning
`none`), it returns the fixed apologetic fallback string, and the whole
blocking chat pipeline completes normally with that fallback as the
response, still appending both turns to memory, so callers need no failure
branch. -/
theorem generation_failure_absorbed (mem : ConversationMemory) (docs : List Document)
    (user_query session_id : String) :
    generate_response none = fallbackResponse ∧
    (chat mem docs (fun _ => none) user_query session_id).1.response = fallbackResponse ∧
    (chat mem docs (fun _ => none) user_query session_id).2
      = add_message (add_message mem session_id "user" user_query) session_id "assistant"
          fallbackResponse :=
  ⟨rfl, rfl, rfl⟩
example : pyStrip "  a b  " = "a b" := rfl
example : pyWords " foo  bar " = ["foo", "bar"] := rfl
example : strContains "how are you today" "are you" = true := rfl
example : strContains "latin" "hi" = false := rfl
example : pyTake 3 "abcdef" = "abc" := rfl
example : pyJoin "\n" ["a", "b", "c"] = "a\nb\nc" := rfl
example : pyTail 2 [1, 2, 3] = [2, 3] := rfl
example : pyTail 0 [1, 2, 3] = [1, 2, 3] := rfl
example : accumulate [" hi ", "x"] = " hi x" := rfl
example :
    get_conversation_history
      (add_message (add_message ⟨1, []⟩ "s" "user" "u1") "s" "assistant" "a1") "s" =
      [⟨"user", "u1"⟩, ⟨"assistant", "a1"⟩] := by decide
example :
    get_conversation_history
      (add_message (add_message (add_message ⟨1, []⟩ "s" "user" "u1") "s" "assistant" "a1")
        "s" "user" "u2") "s" = [⟨"assistant", "a1"⟩, ⟨"user", "u2"⟩] := by decide
